import Mathlib

/-!
Verification development for the `db_tools` ETL core
(`db_tools/etl/__init__.py` and `db_tools/etl/redcap/__init__.py`).

The Python code is shallowly embedded: Python cell values become the
inductive `PyVal`, pandas element-wise operations become functions
`PyVal → _`, raised exceptions become `Except PyErr _`, and dataframes
become explicit lists of rows.  Definitions mirror the source; the few
collaborators that live outside the provided sources (the
`table_enforcer` runtime, `db_tools.etl.recast`, `db_tools.etl.common`)
are modelled from the specification and are marked as such in their doc
comments.
-/

namespace DbTools

/-- Embedding of a Python value as it can appear in a pandas cell in this
code base.  `none` is Python `None`, `nan` is the `np.nan` missing-value
sentinel (the code treats `np.nan` as the usual singleton object, so
`nan` compares equal to itself here, matching the identity-based dict and
set hits in the source), `float` carries the numeric value as a rational
(no claim in this development exercises IEEE rounding), and `list`
stands for the Python sequence types (`list`/`tuple`/`set`) that
`is_subset` treats as collections. -/
inductive PyVal where
  | none : PyVal
  | nan : PyVal
  | bool : Bool → PyVal
  | int : Int → PyVal
  | float : ℚ → PyVal
  | str : String → PyVal
  | list : List PyVal → PyVal
deriving Repr

/-- Numeric view of a Python value: Python `==` identifies `True` with
`1`, `False` with `0`, and compares ints and floats numerically. -/
def PyVal.toRatQ : PyVal → Option ℚ
  | .bool b => some (if b then 1 else 0)
  | .int n => some (n : ℚ)
  | .float q => some q
  | _ => Option.none

mutual

/-- Python `==` (as used by dict/set hashing and membership in the
source): numeric values compare through `toRatQ`, `None` and `nan` only
match themselves, strings compare as strings, sequences element-wise. -/
def pyBeq : PyVal → PyVal → Bool
  | .none, .none => true
  | .nan, .nan => true
  | .str a, .str b => a == b
  | .list xs, .list ys => pyBeqList xs ys
  | a, b =>
    match a.toRatQ, b.toRatQ with
    | some x, some y => x == y
    | _, _ => false

/-- Element-wise Python `==` on sequences. -/
def pyBeqList : List PyVal → List PyVal → Bool
  | [], [] => true
  | x :: xs, y :: ys => pyBeq x y && pyBeqList xs ys
  | _, _ => false

end

/-- `pd.isna`: true exactly on the missing-value sentinels (`None` and
`np.nan`). -/
def isna : PyVal → Bool
  | .none => true
  | .nan => true
  | _ => false

/-- Python exceptions raised by the embedded code.  `keyError` carries
the missing key (Python `KeyError(key)`: the key is the exception's only
argument), `castError` carries the failing cast's name and input, and
`indexError` models positional lookups out of range. -/
inductive PyErr where
  | keyError : PyVal → PyErr
  | castError : String → PyVal → PyErr
  | typeError : String → PyErr
  | attributeError : String → PyErr
  | indexError : PyErr
deriving Repr

/-- Arguments attached to an exception, as in Python's `err.args`.  A
`KeyError` raised by a dict lookup carries exactly the missing key. -/
def PyErr.args : PyErr → List PyVal
  | .keyError k => [k]
  | .castError _ v => [v]
  | .typeError m => [.str m]
  | .attributeError m => [.str m]
  | .indexError => []

/-- Python dict lookup `m[k]`: the value stored under the first key that
compares `==` to `k`, otherwise `KeyError(k)`.  The dicts in the source
have pairwise-distinct keys, so first-match lookup agrees with hashing. -/
def dictLookup (m : List (PyVal × PyVal)) (k : PyVal) : Except PyErr PyVal :=
  match m.find? (fun p => pyBeq p.1 k) with
  | some p => .ok p.2
  | Option.none => .error (.keyError k)

/-- Membership `v in collection` under Python `==`. -/
def pyMem (v : PyVal) (ref : List PyVal) : Bool :=
  ref.any (fun r => pyBeq v r)

/-- Embedding of `db_tools.etl.is_subset`: if `x` is a sequence
(`list`/`tuple`/`set`) the check is `set(x).issubset(ref_set)`, i.e.
every element is a member of `ref_set`; otherwise it is `{x} ⊆ ref_set`,
i.e. membership of `x` itself. -/
def is_subset (x : PyVal) (ref_set : List PyVal) : Bool :=
  match x with
  | .list xs => xs.all (fun e => pyMem e ref_set)
  | _ => pyMem x ref_set

/-- Python `str(value)` for the values this code feeds to the casting
fallback.  Numeric rendering keeps enough fidelity for the claims (none
of which inspect the text of a rendered number). -/
def pyStr : PyVal → String
  | .none => "None"
  | .nan => "nan"
  | .bool b => if b then "True" else "False"
  | .int n => toString n
  | .float q => toString q
  | .str s => s
  | .list _ => "[...]"

/-! ### Executable string primitives

The embedding works on `String.data` (the character list) with
structural recursion, so that every definition evaluates inside the
kernel on concrete inputs.  Each primitive mirrors the Python string
method named in its doc comment. -/

/-- Python `s.startswith(pre)`. -/
def strStartsWith (s pre : String) : Bool :=
  pre.data.isPrefixOf s.data

/-- Worker for `strSplitOn`: scan the input, emitting a piece at each
(non-overlapping, leftmost) occurrence of the separator.  The fuel is
an upper bound on the scan length, consumed once per step. -/
def splitOnCL (sep : List Char) : Nat → List Char → List Char → List (List Char)
  | 0, _, acc => [acc.reverse]
  | _ + 1, [], acc => [acc.reverse]
  | f + 1, c :: rest, acc =>
    if sep.isPrefixOf (c :: rest) then
      acc.reverse :: splitOnCL sep f ((c :: rest).drop sep.length) []
    else
      splitOnCL sep f rest (c :: acc)

/-- Python `s.split(sep)` for a non-empty separator (the only way the
source calls it): leftmost non-overlapping occurrences, empty pieces
kept, `[s]` when the separator never occurs. -/
def strSplitOn (s sep : String) : List String :=
  if sep.data.isEmpty then [s]
  else (splitOnCL sep.data (s.data.length + 1) s.data []).map (fun l => ⟨l⟩)

/-- Python `s.replace(pat, repl)` for a non-empty pattern: split on the
pattern and rejoin with the replacement. -/
def strReplace (s pat repl : String) : String :=
  if pat.data.isEmpty then s
  else ⟨List.intercalate repl.data ((splitOnCL pat.data (s.data.length + 1) s.data []))⟩

/-- Python `s.strip()`: remove leading and trailing whitespace. -/
def strTrim (s : String) : String :=
  ⟨((s.data.dropWhile Char.isWhitespace).reverse.dropWhile Char.isWhitespace).reverse⟩

/-- Python `s.lower()` over the characters this code base meets. -/
def strToLower (s : String) : String :=
  ⟨s.data.map Char.toLower⟩

/-- Byte-wise comparison of two character lists: the order pandas uses
on the homogeneous string keys this code sorts by. -/
def listCharLe : List Char → List Char → Bool
  | [], _ => true
  | _ :: _, [] => false
  | a :: as1, b :: bs =>
    if a.toNat < b.toNat then true
    else if b.toNat < a.toNat then false
    else listCharLe as1 bs

/-- String order used by the sort model. -/
def strLe (a b : String) : Bool :=
  listCharLe a.data b.data

/-- The comparison is total. -/
theorem listCharLe_total : ∀ xs ys, listCharLe xs ys = true ∨ listCharLe ys xs = true := by
  intro xs
  induction xs with
  | nil => intro ys; left; rfl
  | cons a as1 ih =>
    intro ys
    cases ys with
    | nil => right; rfl
    | cons b bs =>
      simp only [listCharLe]
      rcases Nat.lt_trichotomy a.toNat b.toNat with hab | hab | hab
      · left
        rw [if_pos hab]
      · rcases ih bs with h | h
        · left
          rw [if_neg (by omega), if_neg (by omega)]
          exact h
        · right
          rw [if_neg (by omega), if_neg (by omega)]
          exact h
      · right
        rw [if_pos hab]

/-- The comparison is transitive. -/
theorem listCharLe_trans :
    ∀ xs ys zs, listCharLe xs ys = true → listCharLe ys zs = true →
      listCharLe xs zs = true := by
  intro xs
  induction xs with
  | nil => intro ys zs _ _; rfl
  | cons a as1 ih =>
    intro ys zs h1 h2
    cases ys with
    | nil => exact absurd h1 (by simp [listCharLe])
    | cons b bs =>
      cases zs with
      | nil => exact absurd h2 (by simp [listCharLe])
      | cons c cs =>
        simp only [listCharLe] at h1 h2 ⊢
        rcases Nat.lt_trichotomy a.toNat b.toNat with hab | hab | hab
        · rcases Nat.lt_trichotomy b.toNat c.toNat with hbc | hbc | hbc
          · rw [if_pos (by omega)]
          · rw [if_pos (by omega)]
          · rw [if_neg (by omega), if_pos hbc] at h2
            exact absurd h2 (by simp)
        · rw [if_neg (by omega), if_neg (by omega)] at h1
          rcases Nat.lt_trichotomy b.toNat c.toNat with hbc | hbc | hbc
          · rw [if_pos (by omega)]
          · rw [if_neg (by omega), if_neg (by omega)] at h2
            rw [if_neg (by omega), if_neg (by omega)]
            exact ih bs cs h1 h2
          · rw [if_neg (by omega), if_pos hbc] at h2
            exact absurd h2 (by simp)
        · rw [if_neg (by omega), if_pos hab] at h1
          exact absurd h1 (by simp)

/-- `strLe` is total. -/
theorem strLe_total (a b : String) : strLe a b = true ∨ strLe b a = true :=
  listCharLe_total a.data b.data

/-- `strLe` is transitive. -/
theorem strLe_trans (a b c : String) :
    strLe a b = true → strLe b c = true → strLe a c = true :=
  listCharLe_trans a.data b.data c.data

/-! ### Dataframe model

`build_checkbox_df` only reads and writes cell contents, so a dataframe
is modelled as a column-name header plus a list of rows (the pandas row
index plays no role in that function's observable output). -/

/-- A pandas DataFrame: named columns and rows of cells.  Every
construction in this file keeps each row's length equal to `cols.length`. -/
structure DFrame where
  cols : List String
  rows : List (List PyVal)
deriving Repr

/-- Cell of `row` under column name `c` (`df[c]` for one row): the first
column with that name, `nan` if the column is absent.  The source only
reads columns it just selected, so the default is never hit there. -/
def getCell (cols : List String) (row : List PyVal) (c : String) : PyVal :=
  match (cols.zip row).find? (fun p => p.1 == c) with
  | some p => p.2
  | Option.none => .nan

/-- `df[cs]`: column selection, keeping the requested order. -/
def DFrame.select (df : DFrame) (cs : List String) : DFrame :=
  ⟨cs, df.rows.map (fun r => cs.map (getCell df.cols r))⟩

/-- `df.dropna()`: drop every row containing a missing value. -/
def DFrame.dropna (df : DFrame) : DFrame :=
  ⟨df.cols, df.rows.filter (fun r => !r.any (fun v => isna v))⟩

/-- `df.melt(id_vars=..., var_name=..., value_name=...)`: one output row
per (value column, input row) pair, stacked column-by-column in column
order, exactly as pandas emits them. -/
def DFrame.melt (df : DFrame) (id_vars : List String) (var_name value_name : String) :
    DFrame :=
  let value_vars := df.cols.filter (fun c => !(id_vars.contains c))
  ⟨id_vars ++ [var_name, value_name],
    (value_vars.map (fun v =>
      df.rows.map (fun r =>
        id_vars.map (getCell df.cols r) ++ [.str v, getCell df.cols r v]))).flatten⟩

/-- Sort key used by the model of `sort_values`: a tagged textual
encoding of a cell.  On the homogeneous string ids exercised here the
induced order coincides with the pandas value order; all theorems below
use the same key on both sides of an equation, so the encoding itself is
never load-bearing. -/
def pyKey : PyVal → String
  | .none => "0"
  | .nan => "1"
  | .bool b => if b then "2:1" else "2:0"
  | .int n => "3:" ++ toString n
  | .float q => "4:" ++ toString q
  | .str s => "5:" ++ s
  | .list _ => "6:"

/-- Key of a row for `sort_values(by=bys)`. -/
def rowSortKey (cols : List String) (bys : List String) (row : List PyVal) : String :=
  String.intercalate "|" (bys.map (fun c => pyKey (getCell cols row c)))

/-- `df.sort_values(by=bys)`: the rows reordered by key.  The model uses
a deterministic stable sort (the spec asks for a deterministic order;
tie order among equal ids is not observed by any claim). -/
def DFrame.sortValues (df : DFrame) (bys : List String) : DFrame :=
  ⟨df.cols,
    List.insertionSort
      (fun a b => strLe (rowSortKey df.cols bys a) (rowSortKey df.cols bys b) = true)
      df.rows⟩

/-- Truthiness of a cell used as a boolean row mask: only Python `True`
keeps the row. -/
def isTrueCell : PyVal → Bool
  | .bool b => b
  | _ => false

/-- `df[df[c]]`: keep the rows whose cell under `c` is `True`. -/
def DFrame.maskTrue (df : DFrame) (c : String) : DFrame :=
  ⟨df.cols, df.rows.filter (fun r => isTrueCell (getCell df.cols r c))⟩

/-- `df.drop(c, axis=1)`: remove every column named `c`. -/
def DFrame.dropCol (df : DFrame) (c : String) : DFrame :=
  ⟨df.cols.filter (fun x => x != c),
    df.rows.map (fun r => ((df.cols.zip r).filter (fun p => p.1 != c)).map Prod.snd)⟩

/-- `df[c] = df[c].apply(f)`: rewrite the cells of column `c`. -/
def DFrame.applyCol (df : DFrame) (c : String) (f : PyVal → PyVal) : DFrame :=
  ⟨df.cols, df.rows.map (fun r => (df.cols.zip r).map
    (fun p => if p.1 == c then f p.2 else p.2))⟩

/-- `value.split(sep)[-1]` applied to a cell (the melted `field_name`
cells are always strings — the former column names). -/
def lastSplitCell (sep : String) (v : PyVal) : PyVal :=
  match v with
  | .str s => .str ((strSplitOn s sep).getLastD s)
  | other => other

/-- Embedding of `build_checkbox_df` from
`db_tools/etl/redcap/__init__.py`: select the id columns plus every
column whose name starts with `base_col_name`, drop rows with missing
values, melt to long form, sort by the id columns, keep the rows whose
`answer` flag is true, drop the `answer` column, and rewrite the
`base_col_name` cells to the text after the last `sep`.  (`id_vars` is
the already-listified form of the Python argument.) -/
def build_checkbox_df (df : DFrame) (id_vars : List String)
    (base_col_name sep : String) : DFrame :=
  let checkbox_df :=
    (df.select (id_vars ++ df.cols.filter (fun c => strStartsWith c base_col_name))).dropna
  let melted := (checkbox_df.melt id_vars base_col_name "answer").sortValues id_vars
  let result := (melted.maskTrue "answer").dropCol "answer"
  result.applyCol base_col_name (lastSplitCell sep)

/-- Stated from the words of claim C2 (for comparison with the source):
the selection keeps the raw columns whose name starts with
`base_col_name ++ "___"`, rows are filtered on the answer flag and then
sorted by subject id, the answer column is dropped, and the field-name
cells are rewritten to the text after the last separator. -/
def build_checkbox_df_claim (df : DFrame) (id_vars : List String)
    (base_col_name sep : String) : DFrame :=
  let sel :=
    (df.select (id_vars ++
      df.cols.filter (fun c => strStartsWith c (base_col_name ++ "___")))).dropna
  let melted := sel.melt id_vars base_col_name "answer"
  let kept := ((melted.maskTrue "answer").sortValues id_vars).dropCol "answer"
  kept.applyCol base_col_name (lastSplitCell sep)

/-- Claim C2 amended: identical to `build_checkbox_df_claim` except that
the selection prefix is `base_col_name` alone, as in the source (the
separator is not part of the prefix test). -/
def build_checkbox_df_amended (df : DFrame) (id_vars : List String)
    (base_col_name sep : String) : DFrame :=
  let sel :=
    (df.select (id_vars ++ df.cols.filter (fun c => strStartsWith c base_col_name))).dropna
  let melted := sel.melt id_vars base_col_name "answer"
  let kept := ((melted.maskTrue "answer").sortValues id_vars).dropCol "answer"
  kept.applyCol base_col_name (lastSplitCell sep)

/-! ### Column specifications

`table_enforcer.Column` objects are records of a name, a declared dtype,
a uniqueness flag, and ordered validator/recoder lists.  Validators run
element-wise over a series (`series.apply(...)`) and so are modelled as
per-cell predicates; recoders are per-cell transforms that may raise. -/

/-- A `table_enforcer.Column` as configured by this code base: dtypes
are recorded as Python type names. -/
structure Column where
  name : String
  dtype : List String
  unique : Bool
  validators : List (PyVal → Bool)
  recoders : List (PyVal → Except PyErr PyVal)

/-- A `table_enforcer.CompoundColumn`: input and output column specs
plus the declared dataframe transform connecting them. -/
structure CompoundColumn where
  input_columns : List Column
  output_columns : List Column
  column_transform : DFrame → DFrame

/-- Either a simple or a compound compiled column specification. -/
inductive ColumnObj where
  | simple : Column → ColumnObj
  | compound : CompoundColumn → ColumnObj

/-! ### Leaf validators and recoders

`db_tools.etl.common` and `db_tools.etl.redcap.validate` /
`db_tools.etl.redcap.recode` are imported by the source but are not
under `src/`; the handful of leaf functions the factories reference are
modelled from the specification (§4.4 of the spec).  No claim depends on
their internal detail beyond what the spec states. -/

/-- All-digit non-empty character list. -/
def isDigitsCL (l : List Char) : Bool :=
  !l.isEmpty && l.all Char.isDigit

/-- All-digit non-empty string. -/
def isDigits (s : String) : Bool :=
  isDigitsCL s.data

/-- Character list without a leading minus sign. -/
def dropSign (l : List Char) : List Char :=
  match l with
  | c :: rest => if c = '-' then rest else l
  | [] => l

/-- Decimal integer literal, optionally signed. -/
def isIntLit (s : String) : Bool :=
  isDigitsCL (dropSign s.data)

/-- Decimal float literal, optionally signed, with an optional single
point. -/
def isFloatLit (s : String) : Bool :=
  let t := dropSign s.data
  match splitOnCL ['.'] (t.length + 1) t [] with
  | [a] => isDigitsCL a
  | [a, b] => (isDigitsCL a || a.isEmpty) && (isDigitsCL b || b.isEmpty) && !(a.isEmpty && b.isEmpty)
  | _ => false

/-- Natural number denoted by a digit list. -/
def natOfDigits (l : List Char) : Nat :=
  l.foldl (fun n c => n * 10 + (c.toNat - 48)) 0

/-- Rational denoted by a decimal literal accepted by `isFloatLit`. -/
def ratOfLit (s : String) : ℚ :=
  let neg := decide (dropSign s.data ≠ s.data)
  let t := dropSign s.data
  let q : ℚ :=
    match splitOnCL ['.'] (t.length + 1) t [] with
    | [a] => (natOfDigits a : ℚ)
    | [a, b] => (natOfDigits a : ℚ) + (natOfDigits b : ℚ) / ((10 : ℚ) ^ b.length)
    | _ => 0
  if neg then -q else q

/-- Modelled from the spec: `db_tools.etl.recast.as_integer` (module not
under `src/`) converts raw input to an integer and fails with a cast
error on malformed input. -/
def as_integer (v : PyVal) : Except PyErr PyVal :=
  match v with
  | .int n => .ok (.int n)
  | .bool b => .ok (.int (if b then 1 else 0))
  | .float q => .ok (.int (q.num / (q.den : Int)))
  | .str s => if isIntLit s then .ok (.int (ratOfLit s).num) else .error (.castError "as_integer" v)
  | other => .error (.castError "as_integer" other)

/-- Modelled from the spec: `db_tools.etl.recast.as_float` converts raw
input to a float and fails with a cast error on malformed input (so a
string such as `"N/A"` fails). -/
def as_float (v : PyVal) : Except PyErr PyVal :=
  match v with
  | .int n => .ok (.float (n : ℚ))
  | .bool b => .ok (.float (if b then 1 else 0))
  | .float q => .ok (.float q)
  | .nan => .ok (.nan)
  | .str s => if isFloatLit s then .ok (.float (ratOfLit s)) else .error (.castError "as_float" v)
  | other => .error (.castError "as_float" other)

/-- Modelled from the spec: `db_tools.etl.recast.as_string` is the
identity-to-string conversion; it never fails. -/
def as_string (v : PyVal) : Except PyErr PyVal :=
  .ok (.str (pyStr v))

/-- Date-shaped string: three dash-separated digit groups. -/
def looksLikeDate (s : String) : Bool :=
  match strSplitOn s "-" with
  | [a, b, c] => isDigits a && isDigits b && isDigits c
  | _ => false

/-- Time-shaped string: two or three colon-separated digit groups. -/
def looksLikeTime (s : String) : Bool :=
  match strSplitOn s ":" with
  | [a, b] => isDigits a && isDigits b
  | [a, b, c] => isDigits a && isDigits b && isDigits c
  | _ => false

/-- Modelled from the spec: `db_tools.etl.recast.as_date` parses a date
string and fails with a cast error on malformed input (the parsed value
is kept as its text; no claim reads it). -/
def as_date (v : PyVal) : Except PyErr PyVal :=
  match v with
  | .str s => if looksLikeDate s then .ok (.str s) else .error (.castError "as_date" v)
  | other => .error (.castError "as_date" other)

/-- Modelled from the spec: `db_tools.etl.recast.as_time` parses a time
string and fails with a cast error on malformed input. -/
def as_time (v : PyVal) : Except PyErr PyVal :=
  match v with
  | .str s => if looksLikeTime s then .ok (.str s) else .error (.castError "as_time" v)
  | other => .error (.castError "as_time" other)

/-- Modelled from the spec: `common.validate.istime` classifies a value
as time-shaped. -/
def istime (v : PyVal) : Bool :=
  match v with
  | .str s => looksLikeTime s
  | _ => isna v

/-- Modelled from the spec: `common.validate.isalpha` classifies a value
as alphabetic text. -/
def isalpha (v : PyVal) : Bool :=
  match v with
  | .str s => !s.data.isEmpty && s.data.all Char.isAlpha
  | _ => isna v

/-- Modelled from the spec: `validate.date_format` classifies a value as
matching the declared date shape. -/
def date_format (v : PyVal) : Bool :=
  match v with
  | .str s => looksLikeDate s
  | _ => isna v

/-- Modelled from the spec: `validate.valid_float` requires a valid
floating-point number or absent. -/
def valid_float (v : PyVal) : Bool :=
  v.toRatQ.isSome || isna v

/-- Modelled from the spec: `common.recode.nan_to_none` recodes a
null-like raw value to the canonical absent value and passes everything
else through. -/
def nan_to_none (v : PyVal) : Except PyErr PyVal :=
  if isna v then .ok .none else .ok v

/-- Modelled from the spec: `common.recode.to_hour_minute` recodes a raw
time to hour:minute text. -/
def to_hour_minute (v : PyVal) : Except PyErr PyVal :=
  match v with
  | .str s => .ok (.str ⟨s.data.take 5⟩)
  | other => .ok other

/-- Modelled from the spec: `common.recode.to_int_or_nan` recodes a raw
numeric code to an integer, keeping absent values absent, and fails on
non-numeric input. -/
def to_int_or_nan (v : PyVal) : Except PyErr PyVal :=
  if isna v then .ok .nan
  else
    match v with
    | .int n => .ok (.int n)
    | .bool b => .ok (.int (if b then 1 else 0))
    | .float q => .ok (.int (q.num / (q.den : Int)))
    | .str s => if isIntLit s then .ok (.int (ratOfLit s).num) else .error (.castError "to_int_or_nan" v)
    | other => .error (.castError "to_int_or_nan" other)

/-! ### Option-label parser (`ccs_labels_to_mapper`) -/

/-- Python `s.split(sep, maxsplit=1)`. -/
def splitMax1 (s : String) (sep : String) : List String :=
  match strSplitOn s sep with
  | [] => [s]
  | [a] => [a]
  | a :: rest => [a, String.intercalate sep rest]

/-- The `clean_key` closure of `ccs_labels_to_mapper`: lower-case the
code and replace hyphens with underscores. -/
def clean_key (key : String) : String :=
  strToLower (strReplace key "-" "_")

/-- The `clean_value` closure of `ccs_labels_to_mapper`: keep the text
before the `<br><sup>` footnote marker and trim it. -/
def clean_value (value : String) : String :=
  strTrim (((strSplitOn (strReplace value "<br><sup>" "SPLIT_HERE") "SPLIT_HERE")).headD "")

/-- Python dict insertion: an existing key keeps its position and gets
the new value, a new key is appended. -/
def pyDictInsert (m : List (String × String)) (k v : String) : List (String × String) :=
  if m.any (fun p => p.1 == k) then
    m.map (fun p => if p.1 == k then (k, v) else p)
  else m ++ [(k, v)]

/-- Embedding of `ccs_labels_to_mapper`, applied to the row's
`"Choices, Calculations, OR Slider Labels"` cell: split the string on
`|`, strip each choice, split each choice on the first comma, strip the
pieces, and build the ordered code→label dict through `clean_key` /
`clean_value`.  A non-string cell raises `AttributeError` in Python and
a choice without a comma raises `ValueError` while unpacking; both are
caught and yield `None` (here `Option.none`). -/
def ccs_labels_to_mapper (choices : PyVal) : Option (List (String × String)) :=
  match choices with
  | .str labels =>
    let choiceL := (strSplitOn labels "|").map strTrim
    let split_choices := choiceL.map (fun c => splitMax1 c ",")
    if split_choices.all (fun l => l.length == 2) then
      some (split_choices.foldl
        (fun m l =>
          match l with
          | [k, v] => pyDictInsert m (clean_key (strTrim k)) (clean_value (strTrim v))
          | _ => m) [])
    else Option.none
  | _ => Option.none

/-! ### Field-type factories -/

/-- The fixed `value_mapper` of `yesno_column_factory`. -/
def yesno_value_mapper : List (PyVal × PyVal) :=
  [(.str "0", .str "NO"), (.str "1", .str "YES"), (.nan, .none)]

/-- The `valid_values` validator of `yesno_column_factory`: membership
in `value_mapper.values()` via `is_subset`. -/
def yesno_valid_values (x : PyVal) : Bool :=
  is_subset x (yesno_value_mapper.map Prod.snd)

/-- The `rcode` recoder of `yesno_column_factory`: dict lookup in
`value_mapper` (an unmapped value raises `KeyError`). -/
def yesno_rcode (x : PyVal) : Except PyErr PyVal :=
  dictLookup yesno_value_mapper x

/-- Embedding of `yesno_column_factory`. -/
def yesno_column_factory (name : String) : Column :=
  { name := name
    dtype := ["str", "NoneType"]
    unique := false
    validators := [yesno_valid_values]
    recoders := [yesno_rcode] }

/-- The `label_mapper` of `radio_dropdown_column_factory`: the parsed
`options_labels` (string keys and values) extended with the
`np.nan ↦ None` rule.  Keys of the parsed dict are strings, so the
`nan` entry never collides. -/
def radio_label_mapper (options_labels : List (String × String)) : List (PyVal × PyVal) :=
  options_labels.map (fun p => (.str p.1, .str p.2)) ++ [(.nan, .none)]

/-- The `valid_values` validator of `radio_dropdown_column_factory`:
membership in `list(labels) + [None]`, where `labels` is
`label_mapper.values()`. -/
def radio_valid_values (labels : List PyVal) (x : PyVal) : Bool :=
  is_subset x (labels ++ [.none])

/-- The `rcode` recoder of `radio_dropdown_column_factory`: dict lookup
in `label_mapper` (an unmapped value raises `KeyError`). -/
def radio_rcode (mapper : List (PyVal × PyVal)) (x : PyVal) : Except PyErr PyVal :=
  dictLookup mapper x

/-- Embedding of `radio_dropdown_column_factory`.  A field whose
`options_labels` failed to parse makes `label_mapper.update(None)` raise
`TypeError` in Python. -/
def radio_dropdown_column_factory (name : String)
    (options_labels : Option (List (String × String))) : Except PyErr Column :=
  match options_labels with
  | Option.none => .error (.typeError "update argument must be a mapping, not NoneType")
  | some ols =>
    let mapper := radio_label_mapper ols
    .ok { name := name
          dtype := ["str", "NoneType"]
          unique := false
          validators := [radio_valid_values (mapper.map Prod.snd)]
          recoders := [radio_rcode mapper] }

/-- The `valid_values` validator shared by the checkbox input and output
columns: membership in `[np.nan, True, False]` via `is_subset`. -/
def checkbox_valid_values (x : PyVal) : Bool :=
  is_subset x [.nan, .bool true, .bool false]

/-- The translation dict inside the checkbox `rcode` closure. -/
def checkbox_mapping : List (PyVal × PyVal) :=
  [(.int 0, .bool false), (.int 1, .bool true), (.none, .nan)]

/-- The `rcode` recoder of the checkbox input columns: dict lookup in
`{0: False, 1: True, None: nan}`; on `KeyError`, if the missing key is
null-like (`pd.isna(err.args[0])`) the result is `nan`, otherwise the
error re-raises. -/
def checkbox_rcode (x : PyVal) : Except PyErr PyVal :=
  match dictLookup checkbox_mapping x with
  | .ok v => .ok v
  | .error (.keyError k) => if isna k then .ok .nan else .error (.keyError k)
  | .error e => .error e

/-- One checkbox *input* column (`input_column` in the source), named
`{field}___{code}`. -/
def checkbox_input_column (name : String) (col_n : String) : Column :=
  { name := name ++ "___" ++ col_n
    dtype := ["bool", "float"]
    unique := false
    validators := [checkbox_valid_values]
    recoders := [to_int_or_nan, checkbox_rcode] }

/-- Label stored under key `k` in the parsed `options_labels`
(`column_info.options_labels[col_n]`; the factory only looks up keys it
just iterated, so the default is never hit there). -/
def assocGetD (ols : List (String × String)) (k : String) : String :=
  (((ols.find? (fun p => p.1 == k)).map Prod.snd)).getD ""

/-- One checkbox *output* column (`output_column` in the source), named
`{field}___{label}` with no recoders. -/
def checkbox_output_column (name : String) (ols : List (String × String))
    (col_n : String) : Column :=
  { name := name ++ "___" ++ assocGetD ols col_n
    dtype := ["bool", "float"]
    unique := false
    validators := [checkbox_valid_values]
    recoders := [] }

/-- The `transformation` closure of `checkbox_column_factory`: select
the columns whose name starts with `{field}___` and rename each
`{field}___{code}` to `{field}___{label}`. -/
def checkbox_transformation (name : String) (ols : List (String × String))
    (df : DFrame) : DFrame :=
  let column_names := df.cols.filter (fun c => strStartsWith c (name ++ "___"))
  let selected := df.select column_names
  let renamed := selected.cols.map (fun c =>
    match ols.find? (fun p => name ++ "___" ++ p.1 == c) with
    | some p => name ++ "___" ++ p.2
    | Option.none => c)
  ⟨renamed, selected.rows⟩

/-- Embedding of `checkbox_column_factory`: one input and one output
column per key of `options_labels`, in dict order, plus the
transformation.  A field with unparsed choices makes
`None.keys()` raise `AttributeError` in Python. -/
def checkbox_column_factory (name : String)
    (options_labels : Option (List (String × String))) : Except PyErr CompoundColumn :=
  match options_labels with
  | Option.none => .error (.attributeError "NoneType object has no attribute keys")
  | some ols =>
    .ok { input_columns := ols.map (fun p => checkbox_input_column name p.1)
          output_columns := ols.map (fun p => checkbox_output_column name ols p.1)
          column_transform := checkbox_transformation name ols }

/-- The `validation_kind` keys recognised by `text_column_factory`'s
three lookup dicts (and by `cast_map`, which adds nothing to them). -/
def textKinds : List PyVal :=
  [.str "time", .str "alpha_only", .str "date_ymd", .str "date_mdy", .str "date_dmy",
   .str "integer", .str "number", .str "number_1dp", .str "number_4dp", .nan]

/-- The `validators` dict of `text_column_factory`. -/
def textValidators (kind : PyVal) : List (PyVal → Bool) :=
  if pyBeq kind (.str "time") then [istime]
  else if pyBeq kind (.str "alpha_only") then [isalpha]
  else if pyBeq kind (.str "date_ymd") then [date_format]
  else if pyBeq kind (.str "date_mdy") then [date_format]
  else if pyBeq kind (.str "date_dmy") then [date_format]
  else []

/-- The `recoders` dict of `text_column_factory`. -/
def textRecoders (kind : PyVal) : List (PyVal → Except PyErr PyVal) :=
  if pyBeq kind (.str "time") then [to_hour_minute]
  else [nan_to_none]

/-- The `dtype` dict of `text_column_factory`. -/
def textDtype (kind : PyVal) : List String :=
  if pyBeq kind (.str "time") then ["time", "NaTType"]
  else if pyBeq kind (.str "integer") then ["int", "NoneType"]
  else if pyBeq kind (.str "number") then ["float", "NoneType"]
  else if pyBeq kind (.str "number_1dp") then ["float", "NoneType"]
  else if pyBeq kind (.str "number_4dp") then ["float", "NoneType"]
  else ["str", "NoneType"]

/-- Embedding of `text_column_factory`: the dtype, validator and recoder
lists are selected by `validation_kind`; an unrecognized kind raises
`KeyError(kind)` from the dict lookups. -/
def text_column_factory (name : String) (validation_kind : PyVal) : Except PyErr Column :=
  if textKinds.any (fun k => pyBeq k validation_kind) then
    .ok { name := name
          dtype := textDtype validation_kind
          unique := false
          validators := textValidators validation_kind
          recoders := textRecoders validation_kind }
  else .error (.keyError validation_kind)

/-- Embedding of `calc_column_factory`. -/
def calc_column_factory (name : String) : Column :=
  { name := name
    dtype := ["float", "NoneType"]
    unique := false
    validators := [valid_float]
    recoders := [nan_to_none] }

/-! ### Field descriptor construction (`RedCapColumnInfo`) -/

/-- The attribute part of a `RedCapColumnInfo` object (the compiled
`column_object` is carried separately so this record stays first-order). -/
structure RCInfo where
  name : String
  form_name : PyVal
  section_header : PyVal
  field_type : PyVal
  field_label : PyVal
  options_labels : Option (List (String × String))
  validation_kind : PyVal
  validation_min : PyVal
  validation_max : PyVal

/-- One row of the loaded data dictionary (`ddict[col_name]`), exposing
the named attributes the constructor reads. -/
structure DRow where
  name : String
  form_name : PyVal
  section_header : PyVal
  field_type : PyVal
  field_label : PyVal
  choices : PyVal
  validation_kind : PyVal
  validation_min : PyVal
  validation_max : PyVal

/-- The warning emitted by `robust_casting_func`'s fallback branch: the
`log.warn` f-string names the value that failed and the casting
function's `__name__`. -/
structure CastWarning where
  funcName : String
  value : PyVal
deriving Repr

/-- Embedding of `robust_casting_func`: apply the cast; if it raises
(`ValueError`/`TypeError`, which cover every failure of the modelled
casts), fall back to `str(value)` and emit the warning. -/
def robust_casting_func (fname : String) (f : PyVal → Except PyErr PyVal)
    (value : PyVal) : PyVal × List CastWarning :=
  match f value with
  | .ok w => (w, [])
  | .error _ => (.str (pyStr value), [⟨fname, value⟩])

/-- The `cast_map` of `_cast_validation_limits`: the casting function
(with its Python `__name__`) selected by each recognised
`validation_kind`; lookup of any other kind raises `KeyError(kind)`. -/
def castMapFind (kind : PyVal) :
    Except PyErr (String × (PyVal → Except PyErr PyVal)) :=
  if pyBeq kind (.str "time") then .ok ("as_time", as_time)
  else if pyBeq kind (.str "alpha_only") then .ok ("as_string", as_string)
  else if pyBeq kind (.str "date_ymd") then .ok ("as_date", as_date)
  else if pyBeq kind (.str "date_mdy") then .ok ("as_date", as_date)
  else if pyBeq kind (.str "date_dmy") then .ok ("as_date", as_date)
  else if pyBeq kind (.str "integer") then .ok ("as_integer", as_integer)
  else if pyBeq kind (.str "number") then .ok ("as_float", as_float)
  else if pyBeq kind (.str "number_1dp") then .ok ("as_float", as_float)
  else if pyBeq kind (.str "number_4dp") then .ok ("as_float", as_float)
  else if pyBeq kind .nan then .ok ("as_string", as_string)
  else .error (.keyError kind)

/-- Embedding of `RedCapColumnInfo._cast_validation_limits`: select the
robust caster for `validation_kind` (an unrecognized kind raises
`KeyError(kind)`) and recast `validation_min` and `validation_max`,
collecting any fallback warnings. -/
def castValidationLimits (info : RCInfo) :
    Except PyErr (RCInfo × List CastWarning) :=
  match castMapFind info.validation_kind with
  | .error e => .error e
  | .ok (fname, f) =>
    let mn := robust_casting_func fname f info.validation_min
    let mx := robust_casting_func fname f info.validation_max
    .ok ({ info with validation_min := mn.1, validation_max := mx.1 },
         mn.2 ++ mx.2)

/-- Embedding of `RedCapColumnInfo._spawn_column_object`: dispatch on
`field_type` through `fieldtype_to_factory`; an unrecognized type raises
`KeyError(field_type)`. -/
def spawnColumnObject (info : RCInfo) : Except PyErr ColumnObj :=
  if pyBeq info.field_type (.str "radio") then
    (radio_dropdown_column_factory info.name info.options_labels).map .simple
  else if pyBeq info.field_type (.str "text") then
    (text_column_factory info.name info.validation_kind).map .simple
  else if pyBeq info.field_type (.str "checkbox") then
    (checkbox_column_factory info.name info.options_labels).map .compound
  else if pyBeq info.field_type (.str "dropdown") then
    (radio_dropdown_column_factory info.name info.options_labels).map .simple
  else if pyBeq info.field_type (.str "yesno") then
    .ok (.simple (yesno_column_factory info.name))
  else if pyBeq info.field_type (.str "calc") then
    .ok (.simple (calc_column_factory info.name))
  else .error (.keyError info.field_type)

/-- Embedding of `RedCapColumnInfo.__init__` (compilation of one
dictionary row): copy the metadata attributes, parse the choices string,
recast the validation limits, and spawn the column object.  The result
carries the populated info record, the compiled column object, and the
fallback warnings emitted along the way. -/
def compileRow (row : DRow) : Except PyErr (RCInfo × ColumnObj × List CastWarning) :=
  let info0 : RCInfo :=
    { name := row.name
      form_name := row.form_name
      section_header := row.section_header
      field_type := row.field_type
      field_label := row.field_label
      options_labels := ccs_labels_to_mapper row.choices
      validation_kind := row.validation_kind
      validation_min := row.validation_min
      validation_max := row.validation_max }
  match castValidationLimits info0 with
  | .error e => .error e
  | .ok (info1, warns) =>
    match spawnColumnObject info1 with
    | .error e => .error e
    | .ok obj => .ok (info1, obj, warns)

/-! ### Labelled series and `get_failed_values`

`get_failed_values` observes the pandas row index (it mixes the labels
returned by `validate` with positional `iloc` lookup), so this part of
the model carries index labels explicitly: a series is a list of
(label, value) entries.  The `table_enforcer` runtime it calls is not
under `src/` and is modelled from the specification. -/

/-- A pandas Series: (index label, value) entries. -/
abbrev PSeries := List (Int × PyVal)

/-- A dataframe with an explicit row index: (label, cells) rows. -/
structure LFrame where
  cols : List String
  rows : List (Int × List PyVal)

/-- `df[name]`: the named column as a labelled series. -/
def LFrame.colSeries (df : LFrame) (name : String) : PSeries :=
  df.rows.map (fun r => (r.1, getCell df.cols r.2 name))

/-- Element-wise application of one recoder over a series, preserving
labels; a raised exception aborts. -/
def applyRecoder (f : PyVal → Except PyErr PyVal) : PSeries → Except PyErr PSeries
  | [] => .ok []
  | e :: rest =>
    match f e.2 with
    | .error err => .error err
    | .ok w =>
      match applyRecoder f rest with
      | .error err => .error err
      | .ok tail => .ok ((e.1, w) :: tail)

/-- Modelled from the spec: the external `table_enforcer` runtime's
`Column.recode(df)` applies the spec's recoders in declared order to the
column's raw series, element-wise. -/
def runRecoders (fs : List (PyVal → Except PyErr PyVal)) (s : PSeries) :
    Except PyErr PSeries :=
  match fs with
  | [] => .ok s
  | f :: rest =>
    match applyRecoder f s with
    | .ok t => runRecoders rest t
    | .error err => .error err

/-- Per-row classification by a spec's validator list: the row is valid
when every validator accepts it. -/
def colValid (col : Column) (v : PyVal) : Bool :=
  col.validators.all (fun f => f v)

/-- Modelled from the spec: `Column.validate(series, failed_only=True)`
classifies each row and keeps only the failing rows, preserving their
index labels; `failed.index` is the list of those labels. -/
def validateFailedIndex (col : Column) (s : PSeries) : List Int :=
  (s.filter (fun e => !colValid col e.2)).map Prod.fst

/-- `series.iloc[positions]`: positional lookup; a position outside the
series raises `IndexError`.  (Negative positions do not arise here.) -/
def ilocSeries (s : PSeries) (ps : List Int) : Except PyErr PSeries :=
  match ps with
  | [] => .ok []
  | p :: rest =>
    match (if h : 0 ≤ p ∧ p.toNat < s.length then some (s.get ⟨p.toNat, h.2⟩) else Option.none) with
    | some e =>
      match ilocSeries s rest with
      | .ok tail => .ok (e :: tail)
      | .error err => .error err
    | Option.none => .error .indexError

/-- Embedding of `db_tools.etl.get_failed_values`:
`failed = col.validate(col.recode(df), failed_only=True)` followed by
`df[col.name].iloc[failed.index]`. -/
def get_failed_values (df : LFrame) (col : Column) : Except PyErr PSeries :=
  match runRecoders col.recoders (df.colSeries col.name) with
  | .error err => .error err
  | .ok recoded => ilocSeries (df.colSeries col.name) (validateFailedIndex col recoded)

/-! ### Helper lemmas: stable sorting commutes with row filtering -/

/-- Inserting an element that is ≤ every element of a list puts it in
front. -/
theorem orderedInsert_of_forall_le {α : Type} (k : α → String) (a : α) (m : List α)
    (h : ∀ b ∈ m, strLe (k a) (k b) = true) :
    List.orderedInsert (fun x y => strLe (k x) (k y) = true) a m = a :: m := by
  cases m with
  | nil => rfl
  | cons c m =>
    simp only [List.orderedInsert]
    rw [if_pos (h c (List.mem_cons_self c m))]

/-- Filtering distributes over ordered insertion into a sorted list. -/
theorem filter_orderedInsert {α : Type} (k : α → String) (p : α → Bool) (a : α)
    (l : List α) (hl : List.Sorted (fun x y : α => strLe (k x) (k y) = true) l) :
    List.filter p (List.orderedInsert (fun x y => strLe (k x) (k y) = true) a l)
      = if p a then
          List.orderedInsert (fun x y => strLe (k x) (k y) = true) a (List.filter p l)
        else List.filter p l := by
  induction l with
  | nil =>
    cases hpa : p a <;> simp [List.orderedInsert, List.filter_cons, hpa]
  | cons b l ih =>
    have hsl : List.Sorted (fun x y : α => strLe (k x) (k y) = true) l := hl.of_cons
    have hble : ∀ c ∈ l, strLe (k b) (k c) = true := List.rel_of_sorted_cons hl
    have hoi : ∀ m : List α,
        List.orderedInsert (fun x y => strLe (k x) (k y) = true) a (b :: m)
          = if strLe (k a) (k b) = true then a :: b :: m
            else b :: List.orderedInsert (fun x y => strLe (k x) (k y) = true) a m := by
      intro m
      simp only [List.orderedInsert]
    by_cases hab : strLe (k a) (k b) = true
    · rw [hoi l, if_pos hab]
      cases hpa : p a <;> cases hpb : p b
      · simp [List.filter_cons, hpa, hpb]
      · simp [List.filter_cons, hpa, hpb]
      · -- p a = true, p b = false: a goes in front of filter p l
        have hfr : ∀ c ∈ List.filter p l, strLe (k a) (k c) = true := by
          intro c hc
          exact strLe_trans _ _ _ hab (hble c (List.mem_of_mem_filter hc))
        simp only [List.filter_cons, hpa, hpb, if_true, if_false]
        simp only [Bool.false_eq_true, if_false, if_true]
        rw [orderedInsert_of_forall_le k a _ hfr]
      · simp only [List.filter_cons, hpa, hpb, if_true]
        rw [hoi (List.filter p l), if_pos hab]
    · rw [hoi l, if_neg hab]
      cases hpa : p a <;> cases hpb : p b
      · simp only [List.filter_cons, hpb, Bool.false_eq_true, if_false]
        rw [ih hsl]
        simp [hpa]
      · simp only [List.filter_cons, hpb, if_true]
        rw [ih hsl]
        simp [hpa]
      · simp only [List.filter_cons, hpb, Bool.false_eq_true, if_false]
        rw [ih hsl]
        simp only [hpa, if_true]
      · simp only [List.filter_cons, hpb, if_true]
        rw [ih hsl]
        simp only [hpa, if_true]
        rw [hoi (List.filter p l), if_neg hab]

/-- The model's stable sort commutes with filtering. -/
theorem filter_insertionSort {α : Type} (k : α → String) (p : α → Bool)
    (l : List α) :
    List.filter p (List.insertionSort (fun x y => strLe (k x) (k y) = true) l)
      = List.insertionSort (fun x y => strLe (k x) (k y) = true) (List.filter p l) := by
  haveI : IsTotal α (fun x y : α => strLe (k x) (k y) = true) :=
    ⟨fun a b => strLe_total (k a) (k b)⟩
  haveI : IsTrans α (fun x y : α => strLe (k x) (k y) = true) :=
    ⟨fun a b c h1 h2 => strLe_trans _ _ _ h1 h2⟩
  induction l with
  | nil => rfl
  | cons a l ih =>
    have hs : List.Sorted (fun x y : α => strLe (k x) (k y) = true)
        (List.insertionSort (fun x y => strLe (k x) (k y) = true) l) :=
      List.sorted_insertionSort _ l
    simp only [List.insertionSort]
    rw [filter_orderedInsert k p a _ hs, ih, List.filter_cons]
    cases hpa : p a
    · simp [hpa]
    · simp only [hpa, if_true]
      rfl

/-- Keeping the true-flagged rows commutes with sorting the frame. -/
theorem maskTrue_sortValues (df : DFrame) (bys : List String) (c : String) :
    (df.sortValues bys).maskTrue c = (df.maskTrue c).sortValues bys := by
  unfold DFrame.sortValues DFrame.maskTrue
  simp only
  exact congrArg (DFrame.mk df.cols)
    (filter_insertionSort (rowSortKey df.cols bys)
      (fun r => isTrueCell (getCell df.cols r c)) df.rows)

/-! ### Helper lemmas: recoding preserves the index, `iloc` on a default
range index -/

/-- Element-wise recoding keeps the index labels. -/
theorem applyRecoder_map_fst (f : PyVal → Except PyErr PyVal) :
    ∀ (s t : PSeries), applyRecoder f s = .ok t → t.map Prod.fst = s.map Prod.fst := by
  intro s
  induction s with
  | nil =>
    intro t ht
    simp only [applyRecoder] at ht
    cases ht
    rfl
  | cons e rest ih =>
    intro t ht
    simp only [applyRecoder] at ht
    cases hfe : f e.2 with
    | error err => rw [hfe] at ht; cases ht
    | ok w =>
      rw [hfe] at ht
      cases happ : applyRecoder f rest with
      | error err => rw [happ] at ht; cases ht
      | ok tail =>
        rw [happ] at ht
        cases ht
        simp [ih tail happ]

/-- Helper for `iloc_filter_aligned`: fetching position `k` of a series
whose `drop k` starts with `a` yields `a`. -/
theorem iloc_fetch_at (sfull : PSeries) (a : Int × PyVal) (s' : PSeries) (k : Nat)
    (hdrop : sfull.drop k = a :: s') :
    (if h : 0 ≤ (Int.ofNat k) ∧ (Int.ofNat k).toNat < sfull.length
      then some (sfull.get ⟨(Int.ofNat k).toNat, h.2⟩) else Option.none) = some a := by
  have hklt : k < sfull.length := by
    have h2 : (sfull.drop k).length = sfull.length - k := List.length_drop k sfull
    rw [hdrop] at h2
    simp only [List.length_cons] at h2
    omega
  have hget : sfull.get ⟨k, hklt⟩ = a := by
    have h3 : (sfull.drop k).head? = sfull[k]? := List.head?_drop sfull k
    rw [hdrop] at h3
    rw [List.getElem?_eq_getElem hklt] at h3
    simp only [List.head?_cons] at h3
    rw [List.get_eq_getElem]
    exact (Option.some_inj.mp h3).symm
  have hcond : 0 ≤ (Int.ofNat k) ∧ (Int.ofNat k).toNat < sfull.length := by
    exact ⟨Int.ofNat_nonneg k, by simpa using hklt⟩
  rw [dif_pos hcond]
  exact congrArg some hget

/-- Running the recoder pipeline keeps the index labels. -/
theorem runRecoders_map_fst :
    ∀ (fs : List (PyVal → Except PyErr PyVal)) (s t : PSeries),
      runRecoders fs s = .ok t → t.map Prod.fst = s.map Prod.fst := by
  intro fs
  induction fs with
  | nil =>
    intro s t ht
    simp only [runRecoders] at ht
    cases ht
    rfl
  | cons f rest ih =>
    intro s t ht
    simp only [runRecoders] at ht
    cases happ : applyRecoder f s with
    | error err => rw [happ] at ht; cases ht
    | ok u =>
      rw [happ] at ht
      exact (ih u t ht).trans (applyRecoder_map_fst f s u happ)

/-- Positional lookup of the positions of the filtered entries of an
aligned series whose labels are its positions: exactly the corresponding
entries of the base series survive, in order. -/
theorem iloc_filter_aligned (q : PyVal → Bool) :
    ∀ (t : PSeries) (sfull s : PSeries) (k : Nat),
      sfull.drop k = s →
      s.length = t.length →
      t.map Prod.fst = (List.range' k t.length).map Int.ofNat →
      ilocSeries sfull ((t.filter (fun e => q e.2)).map Prod.fst)
        = .ok (((s.zip t).filter (fun pr => q pr.2.2)).map Prod.fst) := by
  intro t
  induction t with
  | nil =>
    intro sfull s k _ _ _
    simp [ilocSeries]
  | cons e t ih =>
    obtain ⟨e1, e2⟩ := e
    intro sfull s k hdrop hlen hlab
    rw [List.length_cons, List.range'_succ k t.length 1] at hlab
    simp only [List.map_cons, List.cons.injEq] at hlab
    obtain ⟨hek, hlab'⟩ := hlab
    subst hek
    cases s with
    | nil => simp at hlen
    | cons a s' =>
      have hlen' : s'.length = t.length := by
        simpa using hlen
      have hdrop' : sfull.drop (k + 1) = s' := by
        have h1 : (sfull.drop k).drop 1 = sfull.drop (k + 1) := List.drop_drop 1 k sfull
        rw [hdrop] at h1
        simpa using h1.symm
      have hfetch := iloc_fetch_at sfull a s' k hdrop
      have htail := ih sfull s' (k + 1) hdrop' hlen' hlab'
      cases hqe : q e2
      · simp only [List.zip_cons_cons, List.filter_cons, hqe, Bool.false_eq_true, if_false]
        exact htail
      · simp only [List.zip_cons_cons, List.filter_cons, hqe, if_true, List.map_cons]
        simp only [ilocSeries, hfetch, htail]

/-! ### Small helpers used by the claim theorems -/

/-- Whether an exception's arguments mention a given name. -/
def errMentions (e : PyErr) (s : String) : Bool :=
  e.args.any (fun v => pyBeq v (.str s))

/-- The recognised `validation_kind` condition of `cast_map`, in the
lookup's own order. -/
def kindKnown (k : PyVal) : Bool :=
  pyBeq k (.str "time") || pyBeq k (.str "alpha_only") || pyBeq k (.str "date_ymd") ||
  pyBeq k (.str "date_mdy") || pyBeq k (.str "date_dmy") || pyBeq k (.str "integer") ||
  pyBeq k (.str "number") || pyBeq k (.str "number_1dp") || pyBeq k (.str "number_4dp") ||
  pyBeq k .nan

/-- The recognised `field_type` condition of `fieldtype_to_factory`. -/
def typeKnown (t : PyVal) : Bool :=
  pyBeq t (.str "radio") || pyBeq t (.str "text") || pyBeq t (.str "checkbox") ||
  pyBeq t (.str "dropdown") || pyBeq t (.str "yesno") || pyBeq t (.str "calc")

/-- Input column names of a compound factory result (empty on error). -/
def ccInputNames (r : Except PyErr CompoundColumn) : List String :=
  match r with
  | .ok cc => cc.input_columns.map Column.name
  | .error _ => []

/-- Output column names of a compound factory result (empty on error). -/
def ccOutputNames (r : Except PyErr CompoundColumn) : List String :=
  match r with
  | .ok cc => cc.output_columns.map Column.name
  | .error _ => []

/-- A value that compares Python-equal to a string is that string. -/
theorem pyBeq_str_iff (a : PyVal) (s : String) : pyBeq a (.str s) = true ↔ a = .str s := by
  cases a <;> simp [pyBeq, PyVal.toRatQ]

/-- A value that compares Python-equal to `nan` is `nan`. -/
theorem pyBeq_nan_iff (a : PyVal) : pyBeq a .nan = true ↔ a = .nan := by
  cases a <;> simp [pyBeq, PyVal.toRatQ]

/-- Dict lookup hits a matching head. -/
theorem dictLookup_cons_hit (k v : PyVal) (m : List (PyVal × PyVal)) (x : PyVal)
    (h : pyBeq k x = true) :
    dictLookup ((k, v) :: m) x = .ok v := by
  simp only [dictLookup]
  rw [List.find?_cons_of_pos _ (by simpa using h)]

/-- Dict lookup skips a non-matching head. -/
theorem dictLookup_cons_skip (k v : PyVal) (m : List (PyVal × PyVal)) (x : PyVal)
    (h : pyBeq k x = false) :
    dictLookup ((k, v) :: m) x = dictLookup m x := by
  simp only [dictLookup]
  rw [List.find?_cons_of_neg _ (by simp [h])]

/-- A label appearing among a field's option labels satisfies the
radio/dropdown validator. -/
theorem radio_valid_of_mem (ols : List (String × String)) (lab : String)
    (h : lab ∈ ols.map Prod.snd) :
    radio_valid_values ((radio_label_mapper ols).map Prod.snd) (.str lab) = true := by
  show pyMem (.str lab) ((radio_label_mapper ols).map Prod.snd ++ [.none]) = true
  rw [pyMem, List.any_eq_true]
  refine ⟨.str lab, ?_, by simp [pyBeq]⟩
  apply List.mem_append_left
  simp only [radio_label_mapper, List.map_append, List.map_map]
  apply List.mem_append_left
  obtain ⟨p, hp, hlab⟩ := List.mem_map.mp h
  exact List.mem_map.mpr ⟨p, hp, by simp [Function.comp, hlab]⟩

/-- The merged `label_mapper` sends a missing raw value to `None`. -/
theorem radio_rcode_nan : ∀ ols : List (String × String),
    radio_rcode (radio_label_mapper ols) .nan = .ok .none := by
  intro ols
  induction ols with
  | nil => rfl
  | cons p rest ih =>
    have hskip : radio_label_mapper (p :: rest)
        = (.str p.1, .str p.2) :: radio_label_mapper rest := by
      simp [radio_label_mapper]
    simp only [radio_rcode] at ih ⊢
    rw [hskip, dictLookup_cons_skip _ _ _ _ (show pyBeq (.str p.1) .nan = false from rfl)]
    exact ih

/-! ### Claim theorems -/

/-- C10: `is_subset x ref` is true exactly when every element of `x` is
a member of the reference collection if `x` is a sequence, and exactly
when `x` itself is a member otherwise; consequently each membership
validator built on it (yesno, radio/dropdown, checkbox) accepts a
collection-valued cell precisely when all of the cell's elements are
legal values. -/
theorem is_subset_spec :
    (∀ (xs : List PyVal) (ref : List PyVal),
      is_subset (.list xs) ref = xs.all (fun e => pyMem e ref)) ∧
    (∀ (x : PyVal) (ref : List PyVal), (∀ xs, x ≠ .list xs) →
      is_subset x ref = pyMem x ref) ∧
    (∀ xs : List PyVal,
      yesno_valid_values (.list xs)
        = xs.all (fun e => pyMem e (yesno_value_mapper.map Prod.snd))) ∧
    (∀ (labels : List PyVal) (xs : List PyVal),
      radio_valid_values labels (.list xs)
        = xs.all (fun e => pyMem e (labels ++ [.none]))) ∧
    (∀ xs : List PyVal,
      checkbox_valid_values (.list xs)
        = xs.all (fun e => pyMem e [.nan, .bool true, .bool false])) := by
  refine ⟨fun xs ref => rfl, ?_, fun xs => rfl, fun labels xs => rfl, fun xs => rfl⟩
  intro x ref h
  cases x with
  | list xs => exact absurd rfl (h xs)
  | none => rfl
  | nan => rfl
  | bool b => rfl
  | int n => rfl
  | float q => rfl
  | str s => rfl

/-- C10 witness: `is_subset` at concrete scalar and collection cells. -/
theorem is_subset_spec_witness :
    is_subset (.str "NO") [.str "NO", .str "YES", .none]
        = pyMem (.str "NO") [.str "NO", .str "YES", .none] ∧
    pyMem (.str "NO") [.str "NO", .str "YES", .none] = true ∧
    is_subset (.list [.bool true, .nan]) [.nan, .bool true, .bool false] = true :=
  ⟨is_subset_spec.2.1 (.str "NO") [.str "NO", .str "YES", .none]
      (fun xs h => PyVal.noConfusion h),
   by decide, by decide⟩

/-- C5: the checkbox input recoder maps raw `0` to `False`, raw `1` to
`True`, and an absent raw value (`None` through the mapping, `nan`
through the `KeyError` handler) to `nan`; any other value with no
mapping entry re-raises the lookup error, except when the unmapped value
is itself null-like, in which case `nan` is returned. -/
theorem checkbox_rcode_spec :
    checkbox_rcode (.int 0) = .ok (.bool false) ∧
    checkbox_rcode (.int 1) = .ok (.bool true) ∧
    checkbox_rcode .nan = .ok .nan ∧
    checkbox_rcode .none = .ok .nan ∧
    (∀ x : PyVal, checkbox_mapping.find? (fun p => pyBeq p.1 x) = Option.none →
      checkbox_rcode x = if isna x then .ok .nan else .error (.keyError x)) := by
  refine ⟨rfl, rfl, rfl, rfl, ?_⟩
  intro x h
  have hd : dictLookup checkbox_mapping x = .error (.keyError x) := by
    simp [dictLookup, h]
  simp only [checkbox_rcode, hd]

/-- C5 witness: the unmapped branch at raw `2` (re-raise) and at `nan`
(absent stays absent). -/
theorem checkbox_rcode_spec_witness :
    checkbox_rcode (.int 2) = .error (.keyError (.int 2)) ∧
    checkbox_rcode (.str "x") = .error (.keyError (.str "x")) :=
  ⟨(checkbox_rcode_spec.2.2.2.2 (.int 2) rfl).trans rfl,
   (checkbox_rcode_spec.2.2.2.2 (.str "x") rfl).trans rfl⟩

/-- C4: the yesno recoder maps raw `"1"` to `"YES"`, `"0"` to `"NO"`,
missing to the canonical absent value `None`, and raises a
translation-lookup error on *every* raw value with no mapping entry
(such as `"2"`); the validator accepts a scalar cell exactly when it is
in the mapping's value set `{"NO", "YES", None}`. -/
theorem yesno_spec :
    yesno_rcode (.str "1") = .ok (.str "YES") ∧
    yesno_rcode (.str "0") = .ok (.str "NO") ∧
    yesno_rcode .nan = .ok .none ∧
    yesno_rcode (.str "2") = .error (.keyError (.str "2")) ∧
    (∀ x : PyVal, yesno_value_mapper.find? (fun p => pyBeq p.1 x) = Option.none →
      yesno_rcode x = .error (.keyError x)) ∧
    (∀ x : PyVal, (∀ xs, x ≠ .list xs) →
      (yesno_valid_values x = true ↔ pyMem x [.str "NO", .str "YES", .none] = true)) := by
  refine ⟨rfl, rfl, rfl, rfl, ?_, ?_⟩
  · intro x h
    simp [yesno_rcode, dictLookup, h]
  · intro x h
    cases x with
    | list xs => exact absurd rfl (h xs)
    | none => exact Iff.rfl
    | nan => exact Iff.rfl
    | bool b => exact Iff.rfl
    | int n => exact Iff.rfl
    | float q => exact Iff.rfl
    | str s => exact Iff.rfl

/-- C4 witness: the universal error clause at unmapped raw values, and
the validator at the canonical values and at a raw code. -/
theorem yesno_spec_witness :
    yesno_rcode (.str "5") = .error (.keyError (.str "5")) ∧
    yesno_rcode (.int 1) = .error (.keyError (.int 1)) ∧
    (yesno_valid_values (.str "NO") = true ↔
      pyMem (.str "NO") [.str "NO", .str "YES", .none] = true) ∧
    yesno_valid_values (.str "NO") = true ∧
    yesno_valid_values (.str "2") = false :=
  ⟨yesno_spec.2.2.2.2.1 (.str "5") rfl,
   yesno_spec.2.2.2.2.1 (.int 1) rfl,
   yesno_spec.2.2.2.2.2 (.str "NO") (fun xs h => PyVal.noConfusion h),
   by decide, by decide⟩

/-- C1 counterexample: for a radio field with options `{"1": "Red"}`,
the raw code `"1"` is recoded successfully, yet the compiled validator
classifies the raw code itself (before recoding) as invalid — the
source validators check the canonical label set, not the raw codes. -/
theorem radio_raw_code_not_validated :
    radio_rcode (radio_label_mapper [("1", "Red")]) (.str "1") = .ok (.str "Red") ∧
    radio_valid_values ((radio_label_mapper [("1", "Red")]).map Prod.snd) (.str "1")
      = false :=
  ⟨rfl, by decide⟩

/-- C1 amended: for every raw code in `options_labels` the compiled
recoder is defined, and the compiled validator classifies the *recoded*
value as valid (for radio/dropdown over any parsed options, for yesno
over its fixed raw set, and for the checkbox input translation over its
numeric raw set; missing raw values recode to the canonical absent
value, which the validators also accept). -/
theorem recode_total_valid_after_recode :
    (∀ (ols : List (String × String)) (k : String), k ∈ ols.map Prod.fst →
      ∃ l : String,
        radio_rcode (radio_label_mapper ols) (.str k) = .ok (.str l) ∧ (k, l) ∈ ols ∧
        radio_valid_values ((radio_label_mapper ols).map Prod.snd) (.str l) = true) ∧
    (∀ ols : List (String × String),
      radio_rcode (radio_label_mapper ols) .nan = .ok .none ∧
      radio_valid_values ((radio_label_mapper ols).map Prod.snd) .none = true) ∧
    (yesno_rcode (.str "0") = .ok (.str "NO") ∧ yesno_valid_values (.str "NO") = true ∧
      yesno_rcode (.str "1") = .ok (.str "YES") ∧ yesno_valid_values (.str "YES") = true ∧
      yesno_rcode .nan = .ok .none ∧ yesno_valid_values .none = true) ∧
    (checkbox_rcode (.int 0) = .ok (.bool false) ∧
      checkbox_valid_values (.bool false) = true ∧
      checkbox_rcode (.int 1) = .ok (.bool true) ∧
      checkbox_valid_values (.bool true) = true ∧
      checkbox_rcode .nan = .ok .nan ∧ checkbox_valid_values .nan = true) := by
  refine ⟨?_, ?_, ⟨rfl, by decide, rfl, by decide, rfl, by decide⟩,
    ⟨rfl, by decide, rfl, by decide, rfl, by decide⟩⟩
  · intro ols
    induction ols with
    | nil =>
      intro k hk
      simp at hk
    | cons p rest ih =>
      intro k hk
      have hmap : radio_label_mapper (p :: rest)
          = (.str p.1, .str p.2) :: radio_label_mapper rest := by
        simp [radio_label_mapper]
      by_cases hpk : p.1 = k
      · refine ⟨p.2, ?_, ?_, ?_⟩
        · simp only [radio_rcode]
          rw [hmap, dictLookup_cons_hit _ _ _ _ (by simp [pyBeq, hpk])]
        · subst hpk
          exact List.mem_cons_self p rest
        · exact radio_valid_of_mem (p :: rest) p.2 (by simp)
      · have hk' : k ∈ rest.map Prod.fst := by
          rw [List.map_cons] at hk
          rcases List.mem_cons.mp hk with h | h
          · exact absurd h.symm hpk
          · exact h
        obtain ⟨l, hrc, hmem, _⟩ := ih k hk'
        have hlmem : l ∈ (p :: rest).map Prod.snd := by
          rw [List.map_cons]
          exact List.mem_cons_of_mem p.2 (List.mem_map.mpr ⟨(k, l), hmem, rfl⟩)
        refine ⟨l, ?_, List.mem_cons_of_mem p hmem, radio_valid_of_mem (p :: rest) l hlmem⟩
        simp only [radio_rcode] at hrc ⊢
        rw [hmap, dictLookup_cons_skip _ _ _ _ (by simp [pyBeq, hpk])]
        exact hrc
  · intro ols
    refine ⟨radio_rcode_nan ols, ?_⟩
    show pyMem .none ((radio_label_mapper ols).map Prod.snd ++ [.none]) = true
    rw [pyMem, List.any_eq_true]
    exact ⟨.none, List.mem_append_right _ (by simp), by simp [pyBeq]⟩

/-- C1 witness: the amended statement at a concrete radio field with
options `{"1": "Red"}` and raw code `"1"`. -/
theorem recode_total_valid_after_recode_witness :
    ∃ l : String,
      radio_rcode (radio_label_mapper [("1", "Red")]) (.str "1") = .ok (.str l) ∧
      ("1", l) ∈ [("1", "Red")] ∧
      radio_valid_values ((radio_label_mapper [("1", "Red")]).map Prod.snd) (.str l)
        = true :=
  recode_total_valid_after_recode.1 [("1", "Red")] "1" (by simp)

/-- C2 counterexample: with a column `q1x` that starts with the field
name but not with `{field_name}___`, the source selects it while the
claim's separator-qualified selection does not, so the two reshapes
disagree on this frame. -/
theorem build_checkbox_df_prefix_cex :
    build_checkbox_df
        ⟨["subid", "q1___a", "q1x"], [[.str "s1", .bool true, .bool true]]⟩
        ["subid"] "q1" "___"
      ≠ build_checkbox_df_claim
        ⟨["subid", "q1___a", "q1x"], [[.str "s1", .bool true, .bool true]]⟩
        ["subid"] "q1" "___" := by
  intro h
  have h2 := congrArg (fun d => d.rows.length) h
  simp only at h2
  exact absurd h2 (by decide)

/-- C2 amended: `build_checkbox_df` equals the claim's pipeline once the
selection prefix is `{field_name}` alone (without the separator): select
id column plus the columns starting with the field name, drop rows with
missing values, melt, keep the true-flagged answers, sort by subject id,
drop the answer column, and rewrite each field-name cell to the text
after the last separator. -/
theorem build_checkbox_df_matches_amended (df : DFrame) (id_vars : List String)
    (base_col_name sep : String) :
    build_checkbox_df df id_vars base_col_name sep
      = build_checkbox_df_amended df id_vars base_col_name sep := by
  simp only [build_checkbox_df, build_checkbox_df_amended]
  rw [maskTrue_sortValues]

/-- C3 counterexample: compiling a row named `f1` whose `field_type` is
the unrecognized `"bogus"` raises `KeyError("bogus")` — the error names
the unrecognized value but not the field. -/
theorem compileRow_error_lacks_field_name :
    compileRow
        { name := "f1", form_name := .nan, section_header := .nan,
          field_type := .str "bogus", field_label := .nan, choices := .nan,
          validation_kind := .nan, validation_min := .nan, validation_max := .nan }
      = .error (.keyError (.str "bogus")) ∧
    errMentions (.keyError (.str "bogus")) "f1" = false ∧
    errMentions (.keyError (.str "bogus")) "bogus" = true :=
  ⟨rfl, by decide, by decide⟩

/-- A recognised `validation_kind` has an entry in `cast_map`. -/
theorem castMapFind_known (k : PyVal) (hk : kindKnown k = true) :
    ∃ fname f, castMapFind k = .ok (fname, f) := by
  simp only [kindKnown, Bool.or_eq_true] at hk
  rcases hk with ((((((((h | h) | h) | h) | h) | h) | h) | h) | h) | h
  · rw [pyBeq_str_iff] at h
    exact ⟨"as_time", as_time, by rw [h]; rfl⟩
  · rw [pyBeq_str_iff] at h
    exact ⟨"as_string", as_string, by rw [h]; rfl⟩
  · rw [pyBeq_str_iff] at h
    exact ⟨"as_date", as_date, by rw [h]; rfl⟩
  · rw [pyBeq_str_iff] at h
    exact ⟨"as_date", as_date, by rw [h]; rfl⟩
  · rw [pyBeq_str_iff] at h
    exact ⟨"as_date", as_date, by rw [h]; rfl⟩
  · rw [pyBeq_str_iff] at h
    exact ⟨"as_integer", as_integer, by rw [h]; rfl⟩
  · rw [pyBeq_str_iff] at h
    exact ⟨"as_float", as_float, by rw [h]; rfl⟩
  · rw [pyBeq_str_iff] at h
    exact ⟨"as_float", as_float, by rw [h]; rfl⟩
  · rw [pyBeq_str_iff] at h
    exact ⟨"as_float", as_float, by rw [h]; rfl⟩
  · rw [pyBeq_nan_iff] at h
    exact ⟨"as_string", as_string, by rw [h]; rfl⟩

/-- C3 amended: an unrecognized `validation_kind` or (with a recognised
kind) an unrecognized `field_type` makes compilation of the row fail
fast with a `KeyError` carrying exactly the unrecognized value (the
field name is not part of the error). -/
theorem compileRow_unknown_variant (row : DRow) :
    (kindKnown row.validation_kind = false →
      compileRow row = .error (.keyError row.validation_kind) ∧
      (PyErr.keyError row.validation_kind).args = [row.validation_kind]) ∧
    (kindKnown row.validation_kind = true → typeKnown row.field_type = false →
      compileRow row = .error (.keyError row.field_type) ∧
      (PyErr.keyError row.field_type).args = [row.field_type]) := by
  constructor
  · intro hk
    refine ⟨?_, rfl⟩
    simp only [kindKnown, Bool.or_eq_false_iff] at hk
    obtain ⟨⟨⟨⟨⟨⟨⟨⟨⟨h1, h2⟩, h3⟩, h4⟩, h5⟩, h6⟩, h7⟩, h8⟩, h9⟩, h10⟩ := hk
    simp [compileRow, castValidationLimits, castMapFind, h1, h2, h3, h4, h5, h6, h7,
      h8, h9, h10]
  · intro hk ht
    refine ⟨?_, rfl⟩
    obtain ⟨fn, f, hcm⟩ := castMapFind_known row.validation_kind hk
    simp only [typeKnown, Bool.or_eq_false_iff] at ht
    obtain ⟨⟨⟨⟨⟨t1, t2⟩, t3⟩, t4⟩, t5⟩, t6⟩ := ht
    simp [compileRow, castValidationLimits, hcm, spawnColumnObject,
      t1, t2, t3, t4, t5, t6]

/-- C3 witness: the amended statement at a row with an unknown
`validation_kind` and at a row with a known kind but unknown
`field_type`. -/
theorem compileRow_unknown_variant_witness :
    (compileRow
        { name := "f2", form_name := .nan, section_header := .nan,
          field_type := .str "text", field_label := .nan, choices := .nan,
          validation_kind := .str "weird", validation_min := .nan,
          validation_max := .nan }
      = .error (.keyError (.str "weird")) ∧
      (PyErr.keyError (.str "weird")).args = [.str "weird"]) ∧
    (compileRow
        { name := "f1", form_name := .nan, section_header := .nan,
          field_type := .str "bogus", field_label := .nan, choices := .nan,
          validation_kind := .nan, validation_min := .nan, validation_max := .nan }
      = .error (.keyError (.str "bogus")) ∧
      (PyErr.keyError (.str "bogus")).args = [.str "bogus"]) :=
  ⟨(compileRow_unknown_variant _).1 (by decide),
   (compileRow_unknown_variant _).2 (by decide) (by decide)⟩

/-- Appending to a fixed prefix is injective. -/
theorem strAppend_left_cancel (pre : String) :
    Function.Injective (fun t : String => pre ++ t) := by
  intro a b h
  have hd : (pre ++ a).data = (pre ++ b).data := congrArg String.data h
  rw [String.data_append, String.data_append] at hd
  have hd2 : a.data = b.data := List.append_cancel_left hd
  cases a
  cases b
  simp only at hd2
  rw [hd2]

/-- With pairwise-distinct option codes, looking up a pair's code in the
parsed `options_labels` returns its own label. -/
theorem assocGetD_eq (ols : List (String × String)) (hk : (ols.map Prod.fst).Nodup) :
    ∀ p ∈ ols, assocGetD ols p.1 = p.2 := by
  induction ols with
  | nil => intro p hp; cases hp
  | cons q rest ih =>
    intro p hp
    rw [List.map_cons, List.nodup_cons] at hk
    rcases List.mem_cons.mp hp with rfl | hp'
    · simp [assocGetD]
    · have hne : q.1 ≠ p.1 := by
        intro he
        exact hk.1 (he ▸ List.mem_map.mpr ⟨p, hp', rfl⟩)
      have : assocGetD (q :: rest) p.1 = assocGetD rest p.1 := by
        simp [assocGetD, List.find?_cons_of_neg, hne]
      rw [this]
      exact ih hk.2 p hp'

/-- C9 counterexample: with duplicate labels `{"1": "A", "2": "A"}` the
input column name set has two elements while the output column name set
has one — the two sets do not have matching cardinality. -/
theorem checkbox_dup_label_cardinality_cex :
    ccInputNames (checkbox_column_factory "q" (some [("1", "A"), ("2", "A")]))
      = ["q___1", "q___2"] ∧
    ccOutputNames (checkbox_column_factory "q" (some [("1", "A"), ("2", "A")]))
      = ["q___A", "q___A"] ∧
    (["q___1", "q___2"] : List String).toFinset.card = 2 ∧
    (["q___A", "q___A"] : List String).toFinset.card = 1 :=
  ⟨rfl, rfl, by decide, by decide⟩

/-- C9 amended: for a checkbox field with pairwise-distinct option
codes, the input column names are exactly `{field}___{code}` per code
and the output column names exactly `{field}___{label}` per label, in
dict order; when the labels are also pairwise distinct the two name
sets have matching cardinality. -/
theorem checkbox_compound_names (name : String) (ols : List (String × String))
    (hk : (ols.map Prod.fst).Nodup) :
    ccInputNames (checkbox_column_factory name (some ols))
      = ols.map (fun p => name ++ "___" ++ p.1) ∧
    ccOutputNames (checkbox_column_factory name (some ols))
      = ols.map (fun p => name ++ "___" ++ p.2) ∧
    ((ols.map Prod.snd).Nodup →
      (ccInputNames (checkbox_column_factory name (some ols))).toFinset.card
        = (ccOutputNames (checkbox_column_factory name (some ols))).toFinset.card) := by
  have hin : ccInputNames (checkbox_column_factory name (some ols))
      = ols.map (fun p => name ++ "___" ++ p.1) := by
    simp [ccInputNames, checkbox_column_factory, checkbox_input_column, List.map_map,
      Function.comp]
  have hout : ccOutputNames (checkbox_column_factory name (some ols))
      = ols.map (fun p => name ++ "___" ++ p.2) := by
    have h1 : ccOutputNames (checkbox_column_factory name (some ols))
        = ols.map (fun p => name ++ "___" ++ assocGetD ols p.1) := by
      simp [ccOutputNames, checkbox_column_factory, checkbox_output_column,
        List.map_map, Function.comp]
    rw [h1]
    exact List.map_congr_left (fun p hp => by rw [assocGetD_eq ols hk p hp])
  refine ⟨hin, hout, ?_⟩
  intro hv
  rw [hin, hout]
  have hinj : Function.Injective (fun t : String => name ++ "___" ++ t) := by
    intro a b h
    have h1 : "___" ++ a = "___" ++ b :=
      strAppend_left_cancel name (by simpa [String.append_assoc] using h)
    exact strAppend_left_cancel "___" h1
  have hmapin : ols.map (fun p => name ++ "___" ++ p.1)
      = (ols.map Prod.fst).map (fun t => name ++ "___" ++ t) := by
    rw [List.map_map]
    rfl
  have hmapout : ols.map (fun p => name ++ "___" ++ p.2)
      = (ols.map Prod.snd).map (fun t => name ++ "___" ++ t) := by
    rw [List.map_map]
    rfl
  rw [hmapin, hmapout,
    List.toFinset_card_of_nodup (hk.map hinj),
    List.toFinset_card_of_nodup (hv.map hinj)]
  simp

/-- C9 witness: the amended statement at a concrete checkbox field with
options `{"1": "Red", "2": "Blue"}`. -/
theorem checkbox_compound_names_witness :
    ccInputNames (checkbox_column_factory "q1" (some [("1", "Red"), ("2", "Blue")]))
      = ["q1___1", "q1___2"] ∧
    ccOutputNames (checkbox_column_factory "q1" (some [("1", "Red"), ("2", "Blue")]))
      = ["q1___Red", "q1___Blue"] ∧
    (ccInputNames
        (checkbox_column_factory "q1" (some [("1", "Red"), ("2", "Blue")]))).toFinset.card
      = (ccOutputNames
        (checkbox_column_factory "q1" (some [("1", "Red"), ("2", "Blue")]))).toFinset.card := by
  have h := checkbox_compound_names "q1" [("1", "Red"), ("2", "Blue")] (by decide)
  exact ⟨h.1.trans (by decide), h.2.1.trans (by decide), h.2.2 (by decide)⟩

/-- C7: when the casting function selected for a recognised
`validation_kind` fails on a declared bound, the robust wrapper falls
back to `str(value)` and emits a warning carrying the failed function's
name and the value, and `_cast_validation_limits` still succeeds; in
particular a `validation_min` of `"N/A"` under kind `"number"` becomes
the string `"N/A"` with an `as_float` warning. -/
theorem robust_cast_fallback :
    (∀ (fname : String) (f : PyVal → Except PyErr PyVal) (v : PyVal) (e : PyErr),
      f v = .error e →
      robust_casting_func fname f v = (.str (pyStr v), [⟨fname, v⟩])) ∧
    (∀ info : RCInfo, kindKnown info.validation_kind = true →
      ∃ out, castValidationLimits info = .ok out) ∧
    (∀ info : RCInfo, info.validation_kind = .str "number" →
      info.validation_min = .str "N/A" →
      ∃ r warns, castValidationLimits info = .ok (r, warns) ∧
        r.validation_min = .str "N/A" ∧
        (⟨"as_float", .str "N/A"⟩ : CastWarning) ∈ warns) := by
  refine ⟨?_, ?_, ?_⟩
  · intro fname f v e hf
    simp [robust_casting_func, hf]
  · intro info hk
    obtain ⟨fn, f, hcm⟩ := castMapFind_known info.validation_kind hk
    exact ⟨({ info with
        validation_min := (robust_casting_func fn f info.validation_min).1,
        validation_max := (robust_casting_func fn f info.validation_max).1 },
      (robust_casting_func fn f info.validation_min).2
        ++ (robust_casting_func fn f info.validation_max).2),
      by simp only [castValidationLimits, hcm]⟩
  · intro info hkind hmin
    have hcm : castMapFind info.validation_kind = .ok ("as_float", as_float) := by
      rw [hkind]
      rfl
    have hro : robust_casting_func "as_float" as_float info.validation_min
        = (.str "N/A", [⟨"as_float", .str "N/A"⟩]) := by
      rw [hmin]
      rfl
    refine ⟨{ info with
        validation_min := (robust_casting_func "as_float" as_float info.validation_min).1,
        validation_max := (robust_casting_func "as_float" as_float info.validation_max).1 },
      (robust_casting_func "as_float" as_float info.validation_min).2
        ++ (robust_casting_func "as_float" as_float info.validation_max).2,
      ?_, ?_, ?_⟩
    · simp only [castValidationLimits, hcm]
    · show (robust_casting_func "as_float" as_float info.validation_min).1 = .str "N/A"
      rw [hro]
    · refine List.mem_append_left _ ?_
      rw [hro]
      simp

/-- The concrete dictionary row of the spec's Example 6. -/
def c7Info : RCInfo :=
  { name := "f3", form_name := .nan, section_header := .nan,
    field_type := .str "text", field_label := .nan, options_labels := Option.none,
    validation_kind := .str "number", validation_min := .str "N/A",
    validation_max := .nan }

/-- C7 witness: the fallback at `"N/A"` under `as_float` and the
surviving compilation of Example 6's bounds. -/
theorem robust_cast_fallback_witness :
    robust_casting_func "as_float" as_float (.str "N/A")
      = (.str "N/A", [⟨"as_float", .str "N/A"⟩]) ∧
    (∃ r warns, castValidationLimits c7Info = .ok (r, warns) ∧
      r.validation_min = .str "N/A" ∧
      (⟨"as_float", .str "N/A"⟩ : CastWarning) ∈ warns) :=
  ⟨robust_cast_fallback.1 "as_float" as_float (.str "N/A")
      (.castError "as_float" (.str "N/A")) rfl,
   robust_cast_fallback.2.2 c7Info rfl rfl⟩

/-- C8: the option-label parser turns a choices string that splits into
`code, label` pairs into the ordered dict of normalized codes
(`clean_key`: hyphens to underscores, lower-cased) to cleaned labels
(`clean_value`: text before the footnote marker, trimmed); a cell that
is not a string, or whose choices do not all split into pairs, yields no
mapping instead of an error. -/
theorem ccs_mapper_spec :
    (∀ (s : String) (pairs : List (String × String)),
      ((strSplitOn s "|").map strTrim).map (fun c => splitMax1 c ",")
          = pairs.map (fun p => [p.1, p.2]) →
      ccs_labels_to_mapper (.str s)
        = some (pairs.foldl
            (fun m p =>
              pyDictInsert m (clean_key (strTrim p.1)) (clean_value (strTrim p.2)))
            [])) ∧
    (∀ s : String,
      (((strSplitOn s "|").map strTrim).map (fun c => splitMax1 c ",")).all
          (fun l => l.length == 2) = false →
      ccs_labels_to_mapper (.str s) = Option.none) ∧
    (∀ v : PyVal, (∀ t, v ≠ .str t) → ccs_labels_to_mapper v = Option.none) ∧
    (∀ k : String, clean_key k = strToLower (strReplace k "-" "_")) ∧
    (∀ l : String, clean_value l
        = strTrim ((strSplitOn (strReplace l "<br><sup>" "SPLIT_HERE")
            "SPLIT_HERE").headD "")) := by
  refine ⟨?_, ?_, ?_, fun k => rfl, fun l => rfl⟩
  · intro s pairs h
    simp only [ccs_labels_to_mapper]
    rw [h]
    have hall : (pairs.map (fun p => [p.1, p.2])).all (fun l => l.length == 2) = true := by
      rw [List.all_eq_true]
      intro x hx
      obtain ⟨p, _, rfl⟩ := List.mem_map.mp hx
      rfl
    rw [if_pos hall, List.foldl_map]
  · intro s h
    simp only [ccs_labels_to_mapper]
    have hc : ¬(((strSplitOn s "|").map strTrim).map
        (fun c => splitMax1 c ",")).all (fun l => l.length == 2) = true := by
      rw [h]
      decide
    rw [if_neg hc]
  · intro v hv
    cases v with
    | str t => exact absurd rfl (hv t)
    | none => rfl
    | nan => rfl
    | bool b => rfl
    | int n => rfl
    | float q => rfl
    | list xs => rfl

/-- C8 witness: the spec's Example 2 choices string parses to
`{"1": "Red", "2": "Blue"}`, and a malformed and an absent choices cell
yield no mapping. -/
theorem ccs_mapper_spec_witness :
    ccs_labels_to_mapper (.str "1, Red | 2, Blue") = some [("1", "Red"), ("2", "Blue")] ∧
    ccs_labels_to_mapper (.str "no comma here") = Option.none ∧
    ccs_labels_to_mapper .nan = Option.none :=
  ⟨(ccs_mapper_spec.1 "1, Red | 2, Blue" [("1", " Red"), ("2", " Blue")]
      (by decide)).trans (by decide),
   ccs_mapper_spec.2.1 "no comma here" (by decide),
   ccs_mapper_spec.2.2.1 .nan (fun t h => PyVal.noConfusion h)⟩

/-- C6 counterexample: on a table whose row index is not the default
range (labels `[1, 0]`), `get_failed_values` returns the entry whose
value *passes* validation and omits the failing one, because the helper
feeds the failing labels to positional `iloc`. -/
theorem get_failed_values_iloc_cex :
    get_failed_values ⟨["v"], [(1, [.str "abc"]), (0, [.int 2])]⟩
        (calc_column_factory "v")
      = .ok [(0, .int 2)] ∧
    colValid (calc_column_factory "v") (.int 2) = true ∧
    colValid (calc_column_factory "v") (.str "abc") = false :=
  ⟨rfl, rfl, rfl⟩

/-- C6 amended: when the source table's row index is the default
0-based range index, `get_failed_values` returns exactly the raw
(label, value) entries whose recoded value fails the spec's validators,
with their original row index preserved. -/
theorem get_failed_values_default_index (df : LFrame) (col : Column)
    (recoded : PSeries)
    (hrec : runRecoders col.recoders (df.colSeries col.name) = .ok recoded)
    (hidx : df.rows.map Prod.fst = (List.range df.rows.length).map Int.ofNat) :
    get_failed_values df col
      = .ok ((((df.colSeries col.name).zip recoded).filter
          (fun pr => !colValid col pr.2.2)).map Prod.fst) := by
  have hs : (df.colSeries col.name).map Prod.fst = df.rows.map Prod.fst := by
    simp [LFrame.colSeries, List.map_map, Function.comp]
  have hrl : recoded.map Prod.fst = (df.colSeries col.name).map Prod.fst :=
    runRecoders_map_fst col.recoders (df.colSeries col.name) recoded hrec
  have hlen : (df.colSeries col.name).length = recoded.length := by
    have h1 := congrArg List.length hrl
    simpa using h1.symm
  have hrows : recoded.length = df.rows.length := by
    have h1 := congrArg List.length hrl
    have h2 := congrArg List.length hs
    simp only [List.length_map] at h1 h2
    omega
  have hlab : recoded.map Prod.fst = (List.range' 0 recoded.length).map Int.ofNat := by
    rw [hrl, hs, hidx, ← List.range_eq_range', hrows]
  simp only [get_failed_values, hrec]
  have := iloc_filter_aligned (fun v => !colValid col v) recoded
    (df.colSeries col.name) (df.colSeries col.name) 0 (List.drop_zero _) hlen hlab
  simpa [validateFailedIndex] using this

/-- C6 witness: the amended statement at a two-row table with the
default index, through a compiled `calc` column spec. -/
theorem get_failed_values_default_index_witness :
    get_failed_values ⟨["v"], [(0, [.int 2]), (1, [.str "abc"])]⟩
        (calc_column_factory "v")
      = .ok [(1, .str "abc")] := by
  have h := get_failed_values_default_index
    ⟨["v"], [(0, [.int 2]), (1, [.str "abc"])]⟩ (calc_column_factory "v")
    [(0, .int 2), (1, .str "abc")] rfl rfl
  exact h.trans rfl

end DbTools
